import Mathlib

/-!
Verification development for the ssbgp-dss-simulator worker.

The development shallowly embeds the worker's code:

* `wait_for_connection` embeds `DispatcherProxy._wait_for_connection`
  (src/dss_simulator/dispatcher_proxy.py, lines 31-65).
* `FS`, `makedir`, `FS.rename`, `FS.writeFile`, `FS.listdir` embed the
  filesystem operations the worker performs (`os.mkdir`, `os.rename`,
  `open(p, "w")`, `os.listdir`) with POSIX error semantics.
* `handle_failure`, `simulator_run`, `run_forever_setup` embed
  `Simulator._handle_failure`, `Simulator._run` and the directory-setup part
  of `Simulator.run_forever` (src/dss_simulator/simulator.py).
* `bootstrap` / `startups` embed the identity-bootstrap part of
  `Simulator.run_forever` (simulator.py, lines 63-81) over a sequence of
  worker startups.
* `simulation_with` embeds src/dss_simulator/simulation.py.
* `mainRun` embeds the startup checks and exit behaviour of `main`
  (src/dss_simulator/main.py).
-/

/-- Paths are lists of path components, relative to the installation root. -/
abbrev FPath := List String

/-- Python/OS exceptions raised by the filesystem operations the worker uses. -/
inductive PyErr where
  | fileExistsError
  | fileNotFoundError
  | isADirectoryError
  | notADirectoryError
  | directoryNotEmpty
  | invalidArgument
  deriving Repr, DecidableEq

/-- A snapshot of the part of the filesystem the worker manipulates: the set
of existing directories and the set of existing files, both as paths relative
to the installation root (the root itself is the directory `[]`). -/
structure FS where
  dirs : List FPath
  files : List FPath
  deriving Repr, DecidableEq

/-- FPath `p` exists and is a directory (`os.path.isdir`). -/
def FS.isDir (fs : FS) (p : FPath) : Bool := fs.dirs.contains p

/-- FPath `p` exists and is a regular file. -/
def FS.isFile (fs : FS) (p : FPath) : Bool := fs.files.contains p

/-- Names of the entries directly inside directory `p` (`os.listdir`).
Callers in the embedded code only apply it to existing directories. -/
def FS.listdir (fs : FS) (p : FPath) : List String :=
  (fs.dirs ++ fs.files).filterMap fun q =>
    if q.dropLast == p then q.getLast? else none

/-- Embeds `os.mkdir(p)`: fails with `FileExistsError` if `p` already exists,
with `FileNotFoundError` if the parent directory does not exist. -/
def FS.mkdir (fs : FS) (p : FPath) : Except PyErr FS :=
  if fs.isDir p || fs.isFile p then .error .fileExistsError
  else if fs.isDir p.dropLast then .ok { fs with dirs := p :: fs.dirs }
  else .error .fileNotFoundError

/-- Embeds `makedir` from simulator.py (lines 228-244): with `exist_ok` it
creates the directory only when `os.path.isdir` is false; otherwise it is a
plain `os.mkdir`. -/
def makedir (fs : FS) (directory : FPath) (exist_ok : Bool) : Except PyErr FS :=
  if exist_ok then
    if fs.isDir directory then .ok fs else fs.mkdir directory
  else fs.mkdir directory

/-- Replaces the leading occurrence of directory `src` in a path by `dst`;
used to move a whole subtree on a directory rename. -/
def movePrefix (src dst q : FPath) : FPath :=
  if src.isPrefixOf q then dst ++ q.drop src.length else q

/-- Embeds POSIX `os.rename(src, dst)`: the destination's parent must exist;
a file rename replaces an existing destination file; a directory rename moves
the whole subtree and requires the destination to be absent (or an empty
directory); renaming a directory into its own subtree is invalid. -/
def FS.rename (fs : FS) (src dst : FPath) : Except PyErr FS :=
  if src == dst then
    if fs.isFile src || fs.isDir src then .ok fs else .error .fileNotFoundError
  else if src.isPrefixOf dst then .error .invalidArgument
  else if !(fs.isDir dst.dropLast) then .error .fileNotFoundError
  else if fs.isFile src then
    if fs.isDir dst then .error .isADirectoryError
    else .ok { dirs := fs.dirs,
               files := dst :: fs.files.filter fun q => !(q == src) && !(q == dst) }
  else if fs.isDir src then
    if fs.isFile dst then .error .notADirectoryError
    else if fs.isDir dst && !(fs.listdir dst).isEmpty then .error .directoryNotEmpty
    else .ok { dirs := (fs.dirs.filter fun q => !(q == dst)).map (movePrefix src dst),
               files := fs.files.map (movePrefix src dst) }
  else .error .fileNotFoundError

/-- Embeds `open(p, "w")`: creates (or truncates) file `p`; fails if `p` is a
directory or the parent directory does not exist. -/
def FS.writeFile (fs : FS) (p : FPath) : Except PyErr FS :=
  if fs.isDir p then .error .isADirectoryError
  else if fs.isDir p.dropLast then
    .ok { fs with files := if fs.isFile p then fs.files else p :: fs.files }
  else .error .fileNotFoundError

/-! Layout of the installation root, from main.py lines 48-52. -/

def topologiesDir : FPath := ["topologies"]
def reportsDir : FPath := ["reports"]
def logsDir : FPath := ["logs"]

/-- Directory `reports/running` (`Simulator._reports_running_dir`). -/
def runningArea : FPath := ["reports", "running"]

/-- Directory `reports/complete` (`Simulator._reports_complete_dir`). -/
def completeArea : FPath := ["reports", "complete"]

/-- Directory `reports/failed` (`Simulator._reports_failed_dir`). -/
def failedArea : FPath := ["reports", "failed"]

/-! The connection-resilient RPC client (dispatcher_proxy.py). -/

/-- Outcome of one attempt at calling the remote procedure, covering exactly
the exception classes handled by `DispatcherProxy._wait_for_connection`:
`xmlrpc.client.Fault` (the remote procedure executed but reported an
application-level error), `socket.gaierror` (name resolution), a
`ConnectionError` (refused/reset), and any other `OSError` (transport I/O). -/
inductive Attempt (α : Type) where
  | success (v : α)
  | fault
  | gaierror
  | connectionError
  | osError
  deriving Repr, DecidableEq

/-- Back-off delay between attempts, `DispatcherProxy.RECONNECT_PERIOD`. -/
def RECONNECT_PERIOD : Nat := 10

/-- The attempt is one of the three connectivity fault classes (as opposed to
an application-level `Fault`). -/
def Attempt.isConnectivityFault {α : Type} : Attempt α → Bool
  | .gaierror => true
  | .connectionError => true
  | .osError => true
  | _ => false

/-- Embeds `DispatcherProxy._wait_for_connection` (dispatcher_proxy.py,
lines 31-65) applied to a given sequence of per-attempt outcomes: the
`while True` loop returns the method's value on the first successful attempt;
on every one of the four caught exception classes it sleeps
`RECONNECT_PERIOD` seconds and retries.  The result is the returned value
paired with the total time slept; `none` models the loop still running after
exhausting the given attempts (it never returns without a success). -/
def wait_for_connection {α : Type} : List (Attempt α) → Option (α × Nat)
  | [] => none
  | .success v :: _ => some (v, 0)
  | .fault :: rest
  | .gaierror :: rest
  | .connectionError :: rest
  | .osError :: rest =>
    match wait_for_connection rest with
    | some (v, t) => some (v, t + RECONNECT_PERIOD)
    | none => none

/-- Log lines emitted by `_wait_for_connection` for one failed attempt
(dispatcher_proxy.py lines 47-62), witnessing that the four exception classes
are classified by distinct log messages. -/
def attemptLog {α : Type} : Attempt α → List String
  | .success _ => []
  | .fault => ["error occurred at the dispatcher"]
  | .gaierror => ["failed to translate domain name", "internet connection may be down",
                  "domain name may be incorrect"]
  | .connectionError => ["failed to connect to dispatcher", "check if the address is correct"]
  | .osError => ["internet connection is down"]

/-! The job descriptor (simulation.py). -/

/-- Embeds the `Simulation` namedtuple of simulation.py, with its ten fields
in source order. -/
structure Simulation where
  id : String
  report_path : String
  topology : String
  destination : Int
  repetitions : Int
  min_delay : Int
  max_delay : Int
  threshold : Int
  stubs_file : String
  seed : Int
  deriving Repr, DecidableEq

/-- Models the `id: str = uuid.uuid4()` default of `simulation_with`: in
Python the default expression is evaluated once, when the `def` line is
executed at module import, so within one process every call that omits `id`
shares this single opaque value. -/
def defaultSimulationId : String := "b5f9c1d2-3a64-4e08-9c51-2f7d8e0a6c13"

/-- Embeds `simulation_with` (simulation.py, lines 9-15): builds a
`Simulation` from the given parameters, with the `id` argument defaulting to
the module-load-time `uuid.uuid4()` value. -/
def simulation_with (report_path : String) (topology : String) (destination : Int)
    (repetitions : Int) (min_delay : Int) (max_delay : Int) (threshold : Int)
    (stubs_file : String) (seed : Int) (id : String := defaultSimulationId) :
    Simulation :=
  { id := id, report_path := report_path, topology := topology,
    destination := destination, repetitions := repetitions,
    min_delay := min_delay, max_delay := max_delay, threshold := threshold,
    stubs_file := stubs_file, seed := seed }

/-! The crash-safe execution step (`Simulator._run` and
`Simulator._handle_failure`), embedded as a transition on `FS` that also
records the observable events of one loop iteration. -/

/-- Observable events of one `Simulator._run` iteration: the poll
(`next_simulation`), the engine child-process invocation (`check_call`, with
the `-t` topology and `-o` output-directory arguments), the completion
notification, every `os.rename`, and the sleeps.  `copyOp` and `deleteOp`
are the copy and delete primitives the code never uses; they are in the
event alphabet so that their absence from a trace is expressible. -/
inductive Event where
  | nextSimulationCall
  | engineRun (jar : String) (topology : FPath) (outputDir : FPath)
  | notifyFinished (simulationId : String)
  | renameOp (src dst : FPath)
  | copyOp (src dst : FPath)
  | deleteOp (p : FPath)
  | sleepFor (seconds : Nat)
  deriving Repr, DecidableEq

/-- Behaviour of one invocation of the external engine (the black-box
`java -jar` child process): whether it exits with status zero, and the names
of the report files it writes into its output directory before exiting.
`check_call` raises `CalledProcessError` exactly when the exit status is
non-zero. -/
structure EngineBehavior where
  exitZero : Bool
  outputs : List String
  deriving Repr, DecidableEq

/-- Result of one `Simulator._run` iteration: the exception that propagated
out of `_run` (if any), the filesystem afterwards, and the recorded events. -/
structure RunResult where
  err : Option PyErr
  fs : FS
  events : List Event
  deriving Repr, DecidableEq

/-- Embeds the `for filename in os.listdir(reports_dir)` loop at the end of
`_handle_failure` (simulator.py, lines 216-220): renames each listed entry of
`srcDir` into `dstDir`, stopping at the first `os.rename` exception. -/
def moveAll (fs : FS) (names : List String) (srcDir dstDir : FPath)
    (acc : List Event) : Option PyErr × FS × List Event :=
  match names with
  | [] => (none, fs, acc)
  | n :: rest =>
    match fs.rename (srcDir ++ [n]) (dstDir ++ [n]) with
    | .error e => (some e, fs, acc)
    | .ok fs' =>
      moveAll fs' rest srcDir dstDir (acc ++ [Event.renameOp (srcDir ++ [n]) (dstDir ++ [n])])

/-- Embeds `Simulator._handle_failure` (simulator.py, lines 182-222): renames
the log file to `logs/{id}-{timestamp}.log`, creates `failed/{id}` with
`makedir` (exist_ok), then renames every entry of `reports_dir` into
`failed/{id}/{timestamp}` — a directory the method never creates. -/
def handle_failure (fs : FS) (sim : Simulation) (reports_dir log_path : FPath)
    (timestamp : String) : Option PyErr × FS × List Event :=
  let log_backup := logsDir ++ [sim.id ++ "-" ++ timestamp ++ ".log"]
  match fs.rename log_path log_backup with
  | .error e => (some e, fs, [])
  | .ok fs1 =>
    let evs1 := [Event.renameOp log_path log_backup]
    match makedir fs1 (failedArea ++ [sim.id]) true with
    | .error e => (some e, fs1, evs1)
    | .ok fs2 =>
      let failed_ts_dir := failedArea ++ [sim.id, timestamp]
      moveAll fs2 (fs2.listdir reports_dir) reports_dir failed_ts_dir evs1

/-- Models the engine child process writing its report files into the output
directory before exiting (failed writes by the external process do not raise
in the worker). -/
def writeOutputs (fs : FS) (d : FPath) (names : List String) : FS :=
  names.foldl (fun f n =>
    match f.writeFile (d ++ [n]) with
    | .ok f' => f'
    | .error _ => f) fs

/-- Embeds `Simulator._run` from the completion check onwards (simulator.py,
lines 134-180), given the filesystem state after the running-directory
try/except block: the early notify-only return when `complete/{id}` exists;
otherwise `open(log_path, "w")`, the engine invocation writing into
`running/{id}`, then on exit 0 the `os.rename` to `complete/{id}` followed by
`notify_finished`, and on non-zero exit `_handle_failure` followed by a
2-second sleep. -/
def execJob (fs1 : FS) (sim : Simulation) (engine : EngineBehavior)
    (timestamp : String) (jar_file : String) : RunResult :=
  let log_path := logsDir ++ [sim.id ++ ".log"]
  let running_dir := runningArea ++ [sim.id]
  let complete_dir := completeArea ++ [sim.id]
  if fs1.isDir complete_dir then
    ⟨none, fs1, [Event.notifyFinished sim.id]⟩
  else
    match fs1.writeFile log_path with
    | .error e => ⟨some e, fs1, []⟩
    | .ok fs2 =>
      let fs3 := writeOutputs fs2 running_dir engine.outputs
      let evRun := Event.engineRun jar_file (topologiesDir ++ [sim.topology]) running_dir
      if engine.exitZero then
        match fs3.rename running_dir complete_dir with
        | .error e => ⟨some e, fs3, [evRun]⟩
        | .ok fs4 =>
          ⟨none, fs4, [evRun, Event.renameOp running_dir complete_dir,
                       Event.notifyFinished sim.id]⟩
      else
        match handle_failure fs3 sim running_dir log_path timestamp with
        | (some e, fs4, evs2) => ⟨some e, fs4, evRun :: evs2⟩
        | (none, fs4, evs2) => ⟨none, fs4, evRun :: evs2 ++ [Event.sleepFor 2]⟩

/-- Embeds one iteration of `Simulator._run` (simulator.py, lines 97-180)
given the dispatcher's reply to the poll: on `None`, a 10-second wait
(`SIMULATION_CHECK_PERIOD`); on a simulation, the
`makedir(running/{id}, exist_ok=False)` try/except block (whose
`FileExistsError` handler is `_handle_failure`; any other exception
propagates), followed by `execJob`. -/
def simulator_run (fs : FS) (resp : Option Simulation) (engine : EngineBehavior)
    (timestamp : String) (jar_file : String) : RunResult :=
  match resp with
  | none => ⟨none, fs, [Event.nextSimulationCall, Event.sleepFor 10]⟩
  | some sim =>
    let log_path := logsDir ++ [sim.id ++ ".log"]
    let running_dir := runningArea ++ [sim.id]
    let step1 : Option PyErr × FS × List Event :=
      match makedir fs running_dir false with
      | .ok fs1 => (none, fs1, [])
      | .error .fileExistsError => handle_failure fs sim running_dir log_path timestamp
      | .error e => (some e, fs, [])
    match step1 with
    | (some e, fs1, evs1) => ⟨some e, fs1, Event.nextSimulationCall :: evs1⟩
    | (none, fs1, evs1) =>
      let r := execJob fs1 sim engine timestamp jar_file
      ⟨r.err, r.fs, Event.nextSimulationCall :: evs1 ++ r.events⟩

/-- Embeds the storage-structure setup of `Simulator.run_forever`
(simulator.py, lines 83-88): the only filesystem work done between startup
and the first poll, five `makedir` calls with exist_ok semantics. -/
def run_forever_setup (fs : FS) : Except PyErr FS := do
  let fs ← makedir fs reportsDir true
  let fs ← makedir fs runningArea true
  let fs ← makedir fs completeArea true
  let fs ← makedir fs failedArea true
  makedir fs logsDir true

/-! Identity bootstrap (`Simulator.run_forever`, lines 63-81) across worker
startups.  The identity file is `some content` when it exists. -/

/-- Embeds one startup's identity bootstrap: reading the uuid file; on
`FileNotFoundError`, registering with the dispatcher (which yields
`freshUuid`) and writing it to the file.  Returns the uuid used, the file
afterwards, and how many `register` calls were made. -/
def bootstrap (uuidFile : Option String) (freshUuid : String) :
    String × Option String × Nat :=
  match uuidFile with
  | some content => (content, some content, 0)
  | none => (freshUuid, some freshUuid, 1)

/-- A sequence of worker startups of one installation: folds `bootstrap` over
the uuids the dispatcher would issue, accumulating the total number of
`register` calls.  Returns the final identity file and that total. -/
def startups (uuidFile : Option String) (freshUuids : List String) :
    Option String × Nat :=
  freshUuids.foldl (fun st fresh =>
    let r := bootstrap st.1 fresh
    (r.2.1, st.2 + r.2.2)) (uuidFile, 0)

/-! The CLI entry point (main.py). -/

/-- Startup environment of `main`: whether the installation directory exists
and whether the engine jar is installed in it. -/
structure CliEnv where
  installDirExists : Bool
  engineInstalled : Bool
  deriving Repr, DecidableEq

/-- How one invocation of the CLI ends. -/
inductive MainOutcome where
  | fatalExit (code : Nat)
  | shutdownExit (code : Nat)
  deriving Repr, DecidableEq

/-- Embeds the startup checks and exit behaviour of `main` (main.py, lines
27-70): the only startup precondition checked is `os.path.isdir(install_dir)`
(exiting with code 1 when it fails); otherwise the simulator runs and `main`
returns normally — exit code 0 — whether the run ended by shutdown or by
`KeyboardInterrupt`. -/
def mainRun (env : CliEnv) (interrupted : Bool) : MainOutcome :=
  if !env.installDirExists then .fatalExit 1
  else .shutdownExit 0

/-! Concrete fixtures: a freshly set-up installation and two jobs. -/

/-- Installation root right after `run_forever` created the storage
structure, with a registered uuid file and no reports. -/
def fsClean : FS :=
  { dirs := [[], ["topologies"], ["reports"], ["reports", "running"],
             ["reports", "complete"], ["reports", "failed"], ["logs"]],
    files := [["uuid.txt"]] }

/-- A concrete job descriptor with id `J1`. -/
def simJ1 : Simulation :=
  { id := "J1", report_path := "r", topology := "topoA", destination := 5,
    repetitions := 10, min_delay := 1, max_delay := 2, threshold := 3,
    stubs_file := "stubs", seed := 4 }

/-- The same job parameters under id `J2`. -/
def simJ2 : Simulation := { simJ1 with id := "J2" }

/-- An engine invocation that writes one report file and exits non-zero. -/
def engineFailing : EngineBehavior := { exitZero := false, outputs := ["out.csv"] }

/-- An engine invocation that writes one report file and exits zero. -/
def engineZero : EngineBehavior := { exitZero := true, outputs := ["out.csv"] }

/-- The event is an `os.rename` record. -/
def Event.isRenameOp : Event → Bool
  | .renameOp _ _ => true
  | _ => false

/-- A startup state in which the running area is non-empty: an unclean
shutdown left `reports/running/J1/part.csv` behind (and the log file of the
interrupted run), before any new poll has been issued. -/
def fsLeftover : FS :=
  { dirs := ["reports", "running", "J1"] :: fsClean.dirs,
    files := [["reports", "running", "J1", "part.csv"], ["logs", "J1.log"]]
      ++ fsClean.files }

/-- A state in which job `J1` already has an entry in the complete area
(for example, the worker crashed after the rename but before the dispatcher
acknowledged the notification, and the job was handed out again). -/
def fsDoneJ1 : FS :=
  { fsClean with dirs := ["reports", "complete", "J1"] :: fsClean.dirs }

/-- C1 counterexample: an application-level `Fault` on the first attempt is
retried silently, not propagated — after one `RECONNECT_PERIOD` back-off the
call returns the second attempt's successful value, exactly as it does after
a connectivity (`ConnectionError`) fault, so no distinct failure signal ever
reaches the caller. -/
theorem fault_is_retried_cex :
    wait_for_connection [Attempt.fault, Attempt.success (42 : Nat)]
        = some (42, RECONNECT_PERIOD)
    ∧ wait_for_connection [Attempt.connectionError, Attempt.success (42 : Nat)]
        = some (42, RECONNECT_PERIOD) :=
  ⟨rfl, rfl⟩

/-- C1 (amended): a remote application-level `Fault` is caught by
`_wait_for_connection` like the connectivity faults: it is logged with its
own message (distinct from each connectivity-fault message) and the call is
retried after the same `RECONNECT_PERIOD` back-off; it is never propagated to
the caller. -/
theorem fault_retried_like_connectivity {α : Type} (rest : List (Attempt α)) :
    wait_for_connection (Attempt.fault :: rest)
        = (wait_for_connection rest).map (fun p => (p.1, p.2 + RECONNECT_PERIOD))
    ∧ attemptLog (Attempt.fault : Attempt α) ≠ attemptLog (Attempt.gaierror : Attempt α)
    ∧ attemptLog (Attempt.fault : Attempt α) ≠ attemptLog (Attempt.connectionError : Attempt α)
    ∧ attemptLog (Attempt.fault : Attempt α) ≠ attemptLog (Attempt.osError : Attempt α) := by
  refine ⟨?_, by simp [attemptLog], by simp [attemptLog], by simp [attemptLog]⟩
  rcases h : wait_for_connection rest with _ | ⟨v, t⟩ <;>
    simp [wait_for_connection, h]

/-- C2: if each of the first `N` attempts fails with a connectivity fault
(name resolution, connection refused/reset, or other transport I/O failure)
and attempt `N + 1` succeeds, `_wait_for_connection` returns the successful
remote result exactly once, never raising, having slept the fixed
10-second back-off after each of the `N` faults. -/
theorem retry_convergence {α : Type} (atts : List (Attempt α)) (v : α)
    (rest : List (Attempt α))
    (h : ∀ a ∈ atts, a.isConnectivityFault = true) :
    wait_for_connection (atts ++ Attempt.success v :: rest)
      = some (v, RECONNECT_PERIOD * atts.length) := by
  induction atts with
  | nil => simp [wait_for_connection]
  | cons a as ih =>
    have ha := h a (List.mem_cons_self a as)
    have hrest : ∀ x ∈ as, x.isConnectivityFault = true :=
      fun x hx => h x (List.mem_cons_of_mem a hx)
    cases a <;> simp [Attempt.isConnectivityFault] at ha <;>
      simp [wait_for_connection, ih hrest, Nat.mul_succ]

/-- Witness for `retry_convergence`: three connectivity faults, then success
with value 7, yields the result once after 30 seconds of back-off. -/
theorem retry_convergence_witness :
    (∀ a ∈ ([Attempt.gaierror, Attempt.connectionError, Attempt.osError] :
        List (Attempt Nat)), a.isConnectivityFault = true)
    ∧ wait_for_connection
        ([Attempt.gaierror, Attempt.connectionError, Attempt.osError]
          ++ Attempt.success (7 : Nat) :: [])
        = some (7, RECONNECT_PERIOD * 3) :=
  ⟨by decide,
   retry_convergence [Attempt.gaierror, Attempt.connectionError, Attempt.osError]
     7 [] (by decide)⟩

/-- Auxiliary: once the identity file holds a value, every further startup's
bootstrap leaves both the file and the registration count unchanged. -/
theorem startups_foldl_fixed (us : List String) : ∀ (c : String) (k : Nat),
    us.foldl (fun st fresh =>
        let r := bootstrap st.1 fresh
        (r.2.1, st.2 + r.2.2)) (some c, k) = (some c, k) := by
  induction us with
  | nil => intro c k; rfl
  | cons u us ih => intro c k; simpa [bootstrap] using ih c k

/-- C8: across any sequence of startups of one installation, at most one
registration call is ever made; a startup that finds the identity file
present trusts it — it makes no registration call and never mutates or
deletes the file; and a first startup with no identity file registers exactly
once and persists the issued identity. -/
theorem registration_at_most_once :
    (∀ us : List String, (startups none us).2 ≤ 1)
    ∧ (∀ (c : String) (us : List String), startups (some c) us = (some c, 0))
    ∧ (∀ (u : String) (us : List String), startups none (u :: us) = (some u, 1)) := by
  have hsome : ∀ (c : String) (us : List String), startups (some c) us = (some c, 0) :=
    fun c us => startups_foldl_fixed us c 0
  have hnone : ∀ (u : String) (us : List String), startups none (u :: us) = (some u, 1) := by
    intro u us
    show us.foldl _ (some u, 0 + 1) = _
    simpa using startups_foldl_fixed us u 1
  refine ⟨?_, hsome, hnone⟩
  intro us
  cases us with
  | nil => simp [startups]
  | cons u us => simp [hnone u us]

/-- C9 counterexample: with the installation directory present but the engine
jar not installed, `main` performs no startup check on the engine and exits
with code 0 after a normal shutdown — there is no distinct non-zero exit code
for "engine not installed". -/
theorem engine_missing_not_fatal_cex :
    mainRun { installDirExists := true, engineInstalled := false } false
      = MainOutcome.shutdownExit 0 := rfl

/-- C9 (amended): the CLI exits with code 0 on normal or interrupted
shutdown, and exits with code 1 when the installation directory is missing;
the engine's presence is not checked at startup, so there is no distinct exit
code for "engine not installed" — whether the engine is installed never
changes the outcome. -/
theorem cli_exit_codes (e i : Bool) :
    mainRun { installDirExists := true, engineInstalled := e } i
        = MainOutcome.shutdownExit 0
    ∧ mainRun { installDirExists := false, engineInstalled := e } i
        = MainOutcome.fatalExit 1 :=
  ⟨rfl, rfl⟩

/-- C10: any two `simulation_with` calls that omit the `id` argument yield
`Simulation` values with equal ids — the `uuid.uuid4()` default is evaluated
once, when the function is defined, not per call — even when every other
argument differs. -/
theorem simulation_with_shared_default_id
    (rp1 t1 : String) (d1 r1 mn1 mx1 th1 : Int) (sf1 : String) (s1 : Int)
    (rp2 t2 : String) (d2 r2 mn2 mx2 th2 : Int) (sf2 : String) (s2 : Int) :
    (simulation_with rp1 t1 d1 r1 mn1 mx1 th1 sf1 s1).id
      = (simulation_with rp2 t2 d2 r2 mn2 mx2 th2 sf2 s2).id := rfl

/-! Helper lemmas about the events recorded by `moveAll`, `handle_failure`,
`execJob` and `simulator_run`. -/

/-- Every event `moveAll` appends to its accumulator is a rename. -/
theorem moveAll_events_acc (names : List String) : ∀ (fs : FS) (s d : FPath)
    (acc : List Event), ∃ l, (moveAll fs names s d acc).2.2 = acc ++ l := by
  induction names with
  | nil => intro fs s d acc; exact ⟨[], (List.append_nil acc).symm⟩
  | cons n rest ih =>
    intro fs s d acc
    unfold moveAll
    split
    · exact ⟨[], (List.append_nil acc).symm⟩
    · rename_i fs' heq
      rcases ih fs' s d (acc ++ [Event.renameOp (s ++ [n]) (d ++ [n])]) with ⟨l, hl⟩
      exact ⟨Event.renameOp (s ++ [n]) (d ++ [n]) :: l, by rw [hl]; simp⟩

/-- Events produced by `moveAll` are the accumulator's plus renames. -/
theorem moveAll_events_rename (names : List String) : ∀ (fs : FS) (s d : FPath)
    (acc : List Event), ∀ e ∈ (moveAll fs names s d acc).2.2,
      e ∈ acc ∨ e.isRenameOp = true := by
  induction names with
  | nil => intro fs s d acc e he; exact Or.inl he
  | cons n rest ih =>
    intro fs s d acc e he
    unfold moveAll at he
    split at he
    · exact Or.inl he
    · rcases ih _ s d _ e he with h | h
      · rcases List.mem_append.mp h with h' | h'
        · exact Or.inl h'
        · simp at h'; subst h'; right; rfl
      · exact Or.inr h

/-- Every event `handle_failure` records is an `os.rename`: in particular it
performs no engine invocation and no completion notification. -/
theorem handle_failure_events_rename (fs : FS) (sim : Simulation) (rd lp : FPath)
    (ts : String) :
    ∀ e ∈ (handle_failure fs sim rd lp ts).2.2, e.isRenameOp = true := by
  intro e he
  simp only [handle_failure] at he
  split at he
  · simp at he
  · split at he
    · simp at he; subst he; rfl
    · rcases moveAll_events_rename _ _ _ _ _ e he with h | h
      · simp at h; subst h; rfl
      · exact h

/-- `handle_failure` either fails on the very first `os.rename` (of the log
file) having recorded nothing, or its first recorded event is that log
rename to `logs/{id}-{timestamp}.log`. -/
theorem handle_failure_events_structure (fs : FS) (sim : Simulation) (rd lp : FPath)
    (ts : String) :
    ((handle_failure fs sim rd lp ts).1.isSome = true
        ∧ (handle_failure fs sim rd lp ts).2.2 = [])
    ∨ ∃ l, (handle_failure fs sim rd lp ts).2.2
        = Event.renameOp lp (logsDir ++ [sim.id ++ "-" ++ ts ++ ".log"]) :: l := by
  simp only [handle_failure]
  split
  · exact Or.inl ⟨rfl, rfl⟩
  · rename_i fs1 heq1
    right
    split
    · exact ⟨[], rfl⟩
    · rename_i fs2 heq2
      rcases moveAll_events_acc (fs2.listdir rd) fs2 rd (failedArea ++ [sim.id, ts])
        [Event.renameOp lp (logsDir ++ [sim.id ++ "-" ++ ts ++ ".log"])] with ⟨l, hl⟩
      exact ⟨l, by simpa using hl⟩

/-- Any engine invocation recorded by `execJob` has the per-job running
directory `reports/running/{id}` as its output directory. -/
theorem execJob_engineRun_dir (fs1 : FS) (sim : Simulation) (engine : EngineBehavior)
    (ts jar : String) (j : String) (t o : FPath)
    (h : Event.engineRun j t o ∈ (execJob fs1 sim engine ts jar).events) :
    o = runningArea ++ [sim.id] := by
  simp only [execJob] at h
  split at h
  · simp at h
  · split at h
    · simp at h
    · rename_i fs2 heqw
      split at h
      · split at h
        · simp at h; exact h.2.2
        · simp at h; exact h.2.2
      · split at h
        · rename_i heq
          simp at h
          rcases h with ⟨_, _, ho⟩ | hmem
          · exact ho
          · have hr := handle_failure_events_rename
              (writeOutputs fs2 (runningArea ++ [sim.id]) engine.outputs) sim
              (runningArea ++ [sim.id]) (logsDir ++ [sim.id ++ ".log"]) ts
              (Event.engineRun j t o)
            rw [heq] at hr
            exact absurd (hr hmem) (by simp [Event.isRenameOp])
        · rename_i heq
          simp at h
          rcases h with ⟨_, _, ho⟩ | hmem
          · exact ho
          · have hr := handle_failure_events_rename
              (writeOutputs fs2 (runningArea ++ [sim.id]) engine.outputs) sim
              (runningArea ++ [sim.id]) (logsDir ++ [sim.id ++ ".log"]) ts
              (Event.engineRun j t o)
            rw [heq] at hr
            exact absurd (hr hmem) (by simp [Event.isRenameOp])

/-- The `.dirs` component is untouched by one engine file write. -/
theorem writeStep_dirs (fs : FS) (q : FPath) :
    (match fs.writeFile q with | Except.ok f' => f' | Except.error _ => fs).dirs
      = fs.dirs := by
  rcases hq : fs.writeFile q with e | f'
  · rfl
  · unfold FS.writeFile at hq
    split at hq
    · cases hq
    · split at hq
      · injection hq with hq; subst hq; rfl
      · cases hq

/-- The `.dirs` component is untouched by the engine's output writes. -/
theorem writeOutputs_dirs (ns : List String) : ∀ (fs : FS) (d : FPath),
    (writeOutputs fs d ns).dirs = fs.dirs := by
  induction ns with
  | nil => intro fs d; rfl
  | cons k rest ih =>
    intro fs d
    show (writeOutputs (match fs.writeFile (d ++ [k]) with
        | Except.ok f' => f' | Except.error _ => fs) d rest).dirs = fs.dirs
    rw [ih]
    exact writeStep_dirs fs (d ++ [k])

/-- Existing files survive one engine file write. -/
theorem writeStep_isFile_mono (fs : FS) (q p : FPath) (h : fs.isFile p = true) :
    (match fs.writeFile q with | Except.ok f' => f' | Except.error _ => fs).isFile p
      = true := by
  rcases hq : fs.writeFile q with e | f'
  · exact h
  · unfold FS.writeFile at hq
    split at hq
    · cases hq
    · split at hq
      · injection hq with hq; subst hq
        simp only [FS.isFile] at h ⊢
        split
        · exact h
        · have h' : p ∈ fs.files := by simpa using h
          simp [h']
      · cases hq

/-- Existing files survive the engine's output writes. -/
theorem writeOutputs_isFile_mono (ns : List String) : ∀ (fs : FS) (d p : FPath),
    fs.isFile p = true → (writeOutputs fs d ns).isFile p = true := by
  induction ns with
  | nil => intro fs d p h; exact h
  | cons k rest ih =>
    intro fs d p h
    show (writeOutputs (match fs.writeFile (d ++ [k]) with
        | Except.ok f' => f' | Except.error _ => fs) d rest).isFile p = true
    exact ih _ d p (writeStep_isFile_mono fs (d ++ [k]) p h)

/-- Each output the engine writes into its (existing, file-free) output
directory exists afterwards. -/
theorem writeOutputs_isFile_new (ns : List String) : ∀ (fs : FS) (d : FPath),
    fs.isDir d = true → (∀ m, fs.isDir (d ++ [m]) = false) →
    ∀ n ∈ ns, (writeOutputs fs d ns).isFile (d ++ [n]) = true := by
  induction ns with
  | nil => intro fs d _ _ n hn; simp at hn
  | cons k rest ih =>
    intro fs d hd hnd n hn
    have hstep : fs.writeFile (d ++ [k]) = Except.ok { fs with
        files := if fs.isFile (d ++ [k]) then fs.files else (d ++ [k]) :: fs.files } := by
      simp [FS.writeFile, hnd k, hd]
    have hstep' : (match fs.writeFile (d ++ [k]) with
        | Except.ok f' => f' | Except.error _ => fs) = { fs with
        files := if fs.isFile (d ++ [k]) then fs.files else (d ++ [k]) :: fs.files } := by
      rw [hstep]
    show (writeOutputs (match fs.writeFile (d ++ [k]) with
        | Except.ok f' => f' | Except.error _ => fs) d rest).isFile (d ++ [n]) = true
    rw [hstep']
    rcases List.mem_cons.mp hn with rfl | hn
    · apply writeOutputs_isFile_mono
      simp only [FS.isFile]
      split
      · rename_i hcond; exact hcond
      · simp
    · refine ih _ d ?_ ?_ n hn
      · exact hd
      · exact hnd

/-- Paths outside the output directory are untouched by the engine's
writes. -/
theorem writeOutputs_isFile_untouched (ns : List String) : ∀ (fs : FS) (d p : FPath),
    (∀ n, p ≠ d ++ [n]) → (writeOutputs fs d ns).isFile p = fs.isFile p := by
  induction ns with
  | nil => intro fs d p _; rfl
  | cons k rest ih =>
    intro fs d p hne
    show (writeOutputs (match fs.writeFile (d ++ [k]) with
        | Except.ok f' => f' | Except.error _ => fs) d rest).isFile p = fs.isFile p
    rw [ih _ d p hne]
    rcases hq : fs.writeFile (d ++ [k]) with e | f'
    · rfl
    · unfold FS.writeFile at hq
      split at hq
      · cases hq
      · split at hq
        · injection hq with hq; subst hq
          simp only [FS.isFile]
          split
          · rfl
          · simp only [List.contains_cons]
            have : (p == d ++ [k]) = false := by simpa using hne k
            simp [this]
        · cases hq

/-- After a subtree rename, no path of the source subtree that is not also in
the destination subtree remains in the renamed list: the move leaves nothing
behind (rename, not copy). -/
theorem contains_map_movePrefix_false (l : List FPath) (src dst x : FPath)
    (hx : src.isPrefixOf x = true) (hd : dst.isPrefixOf x = false) :
    (l.map (movePrefix src dst)).contains x = false := by
  have hmem : x ∉ l.map (movePrefix src dst) := by
    intro hmem
    rcases List.mem_map.mp hmem with ⟨q, hq, hfq⟩
    unfold movePrefix at hfq
    split at hfq
    · have hpre : dst.isPrefixOf x = true := by
        rw [← hfq, List.isPrefixOf_iff_prefix]
        exact ⟨_, rfl⟩
      rw [hpre] at hd; cases hd
    · rename_i hnp
      subst hfq
      exact hnp hx
  simpa using hmem

/-- One `_run` iteration whose `makedir` of the running directory succeeds is
the poll followed by `execJob`. -/
theorem simulator_run_ok_step (fs fs1 : FS) (sim : Simulation)
    (engine : EngineBehavior) (ts jar : String)
    (hmk : makedir fs (runningArea ++ [sim.id]) false = Except.ok fs1) :
    simulator_run fs (some sim) engine ts jar
      = ⟨(execJob fs1 sim engine ts jar).err, (execJob fs1 sim engine ts jar).fs,
         Event.nextSimulationCall :: (execJob fs1 sim engine ts jar).events⟩ := by
  simp [simulator_run, hmk]

/-- `execJob` on the success path: no completed entry, log opened, engine
exits zero, rename succeeds. -/
theorem execJob_success_step (fs1 fs2 fs4 : FS) (sim : Simulation)
    (engine : EngineBehavior) (ts jar : String)
    (hz : engine.exitZero = true)
    (hcd : fs1.isDir (completeArea ++ [sim.id]) = false)
    (hwf : fs1.writeFile (logsDir ++ [sim.id ++ ".log"]) = Except.ok fs2)
    (hren : (writeOutputs fs2 (runningArea ++ [sim.id]) engine.outputs).rename
        (runningArea ++ [sim.id]) (completeArea ++ [sim.id]) = Except.ok fs4) :
    execJob fs1 sim engine ts jar
      = ⟨none, fs4,
         [Event.engineRun jar (topologiesDir ++ [sim.topology]) (runningArea ++ [sim.id]),
          Event.renameOp (runningArea ++ [sim.id]) (completeArea ++ [sim.id]),
          Event.notifyFinished sim.id]⟩ := by
  simp [execJob, hcd, hwf, hz, hren]

/-- C4 counterexample: with a non-empty running area at startup
(`fsLeftover`), the storage-structure setup — the only work `run_forever`
does between the identity bootstrap and the loop — changes nothing, and the
first loop iteration issues its poll with the running area exactly as-is
(the leftover `reports/running/J1/part.csv` still in place afterwards): no
startup crash-recovery check runs before the first poll, so the recovery
described by the claim does not happen once at startup. -/
theorem no_startup_recovery_cex :
    run_forever_setup fsLeftover = Except.ok fsLeftover
    ∧ (simulator_run fsLeftover none engineZero "t" "jar").events
        = [Event.nextSimulationCall, Event.sleepFor 10]
    ∧ (simulator_run fsLeftover none engineZero "t" "jar").fs = fsLeftover
    ∧ fsLeftover.isFile ["reports", "running", "J1", "part.csv"] = true := by
  refine ⟨rfl, rfl, rfl, rfl⟩

/-- C4 (amended): the crash-recovery check is not a one-time startup step;
it happens per job, after each poll.  The poll is always the first recorded
event of an iteration, and when the polled job's own running directory
already exists, the iteration immediately follows the poll with the recovery
archival (its first rename, of the log file to its timestamped backup) or
dies in the recovery attempt having recorded nothing but the poll. -/
theorem recovery_after_poll (fs : FS) (sim : Simulation) (engine : EngineBehavior)
    (ts jar : String) (hdir : fs.isDir (runningArea ++ [sim.id]) = true) :
    (∀ resp, (simulator_run fs resp engine ts jar).events.head?
        = some Event.nextSimulationCall)
    ∧ ((simulator_run fs (some sim) engine ts jar).events.take 2
          = [Event.nextSimulationCall,
             Event.renameOp (logsDir ++ [sim.id ++ ".log"])
               (logsDir ++ [sim.id ++ "-" ++ ts ++ ".log"])]
       ∨ ((simulator_run fs (some sim) engine ts jar).events = [Event.nextSimulationCall]
          ∧ (simulator_run fs (some sim) engine ts jar).err.isSome = true)) := by
  constructor
  · intro resp
    cases resp with
    | none => rfl
    | some sim' =>
      simp only [simulator_run]
      split <;> rfl
  · have hmk : makedir fs (runningArea ++ [sim.id]) false
        = Except.error PyErr.fileExistsError := by
      simp [makedir, FS.mkdir, hdir]
    rcases hh : handle_failure fs sim (runningArea ++ [sim.id])
        (logsDir ++ [sim.id ++ ".log"]) ts with ⟨err, fs1, evs⟩
    rcases handle_failure_events_structure fs sim (runningArea ++ [sim.id])
        (logsDir ++ [sim.id ++ ".log"]) ts with ⟨hsome, hnil⟩ | ⟨l, hl⟩
    · rw [hh] at hsome hnil
      right
      cases err with
      | none => simp at hsome
      | some e =>
        have hnil' : evs = [] := hnil
        simp only [simulator_run, hmk, hh]
        simp [hnil']
    · rw [hh] at hl
      have hl' : evs = Event.renameOp (logsDir ++ [sim.id ++ ".log"])
          (logsDir ++ [sim.id ++ "-" ++ ts ++ ".log"]) :: l := hl
      left
      cases err with
      | some e =>
        simp only [simulator_run, hmk, hh]
        simp [hl']
      | none =>
        simp only [simulator_run, hmk, hh]
        simp [hl']

/-- Witness for `recovery_after_poll`: leftover running directory for `J1`. -/
theorem recovery_after_poll_witness :
    (fsLeftover.isDir (runningArea ++ [simJ1.id]) = true)
    ∧ ((∀ resp, (simulator_run fsLeftover resp engineZero "t" "jar").events.head?
          = some Event.nextSimulationCall)
      ∧ ((simulator_run fsLeftover (some simJ1) engineZero "t" "jar").events.take 2
            = [Event.nextSimulationCall,
               Event.renameOp (logsDir ++ [simJ1.id ++ ".log"])
                 (logsDir ++ [simJ1.id ++ "-" ++ "t" ++ ".log"])]
         ∨ ((simulator_run fsLeftover (some simJ1) engineZero "t" "jar").events
              = [Event.nextSimulationCall]
            ∧ (simulator_run fsLeftover (some simJ1) engineZero "t" "jar").err.isSome
              = true))) :=
  ⟨by decide, recovery_after_poll fsLeftover simJ1 engineZero "t" "jar" (by decide)⟩

/-- C5 counterexample: the running area is per-job, and two of its
subdirectories can be non-empty at once in a reachable state — after a
failed run of `J1` (the worker's failure handler dies on the missing
timestamp directory and the report file stays in `running/J1`) and a
subsequent failed run of `J2`, both `running/J1/out.csv` and
`running/J2/out.csv` exist, for two distinct job ids. -/
theorem two_nonempty_running_dirs_cex :
    ((simulator_run (simulator_run fsClean (some simJ1) engineFailing "t1" "jar").fs
        (some simJ2) engineFailing "t2" "jar").fs.isFile
          ["reports", "running", "J1", "out.csv"] = true)
    ∧ ((simulator_run (simulator_run fsClean (some simJ1) engineFailing "t1" "jar").fs
        (some simJ2) engineFailing "t2" "jar").fs.isFile
          ["reports", "running", "J2", "out.csv"] = true)
    ∧ "J1" ≠ "J2" := by
  refine ⟨rfl, rfl, by decide⟩

/-- C5 (amended): the running area is a per-job location: every engine
invocation a `_run` iteration records writes its partial output to
`reports/running/{id}` for the id of the job being executed (so leftovers of
other jobs are simply not part of the location the current execution
uses). -/
theorem per_job_running_dir (fs : FS) (sim : Simulation)
    (engine : EngineBehavior) (ts jar : String) (j : String) (t o : FPath)
    (h : Event.engineRun j t o ∈ (simulator_run fs (some sim) engine ts jar).events) :
    o = runningArea ++ [sim.id] := by
  simp only [simulator_run] at h
  split at h
  · rename_i e fs1 evs1 heq
    simp at h
    split at heq
    · simp at heq
    · rename_i hmk
      have hr := handle_failure_events_rename fs sim
        (runningArea ++ [sim.id]) (logsDir ++ [sim.id ++ ".log"]) ts
        (Event.engineRun j t o)
      rw [heq] at hr
      exact absurd (hr h) (by simp [Event.isRenameOp])
    · rename_i e' hmk
      simp at heq
      rw [heq.2.2] at h
      simp at h
  · rename_i fs1 evs1 heq
    simp at h
    rcases h with h | h
    · split at heq
      · rename_i hmk
        simp at heq
        rw [heq.2] at h
        simp at h
      · rename_i hmk
        have hr := handle_failure_events_rename fs sim
          (runningArea ++ [sim.id]) (logsDir ++ [sim.id ++ ".log"]) ts
          (Event.engineRun j t o)
        rw [heq] at hr
        exact absurd (hr h) (by simp [Event.isRenameOp])
      · rename_i e' hmk
        simp at heq
    · exact execJob_engineRun_dir fs1 sim engine ts jar j t o h

/-- Witness for `per_job_running_dir`: a successful run of `J1` records the
engine invocation with output directory `reports/running/J1`. -/
theorem per_job_running_dir_witness :
    (Event.engineRun "jar" ["topologies", "topoA"] ["reports", "running", "J1"]
        ∈ (simulator_run fsClean (some simJ1) engineZero "t" "jar").events)
    ∧ ["reports", "running", "J1"] = runningArea ++ [simJ1.id] :=
  ⟨by decide, per_job_running_dir fsClean simJ1 engineZero "t" "jar" "jar"
    ["topologies", "topoA"] ["reports", "running", "J1"] (by decide)⟩

/-- C6: the failure-archiving path is broken.  On the concrete failing input
— clean installation, job `J2`, engine writing `out.csv` and exiting
non-zero — `_handle_failure` raises `FileNotFoundError` out of the iteration
(because `failed/J2/{timestamp}` is never created before `os.rename` targets
it), the report file stays in `reports/running/J2` instead of being
relocated, no timestamped failed-area entry exists afterwards, and
`notify_finished` is (correctly) not called.  The relocation the claim (and
the code's own comments) describe does not happen. -/
theorem failure_archiving_crashes :
    ((simulator_run fsClean (some simJ2) engineFailing "18-01-01-00-00-00"
        "ssbgp-simulator.jar").err = some PyErr.fileNotFoundError)
    ∧ ((simulator_run fsClean (some simJ2) engineFailing "18-01-01-00-00-00"
        "ssbgp-simulator.jar").fs.isFile ["reports", "running", "J2", "out.csv"] = true)
    ∧ ((simulator_run fsClean (some simJ2) engineFailing "18-01-01-00-00-00"
        "ssbgp-simulator.jar").fs.isDir
          ["reports", "failed", "J2", "18-01-01-00-00-00"] = false)
    ∧ ((simulator_run fsClean (some simJ2) engineFailing "18-01-01-00-00-00"
        "ssbgp-simulator.jar").fs.isFile
          ["reports", "failed", "J2", "18-01-01-00-00-00", "out.csv"] = false)
    ∧ (Event.notifyFinished "J2" ∉ (simulator_run fsClean (some simJ2) engineFailing
        "18-01-01-00-00-00" "ssbgp-simulator.jar").events) := by
  refine ⟨rfl, rfl, rfl, rfl, by decide⟩

/-- C7: on an engine run that exits zero (fresh running directory, no
completed entry), the iteration raises nothing; its events are exactly the
poll, the engine invocation, ONE rename of `running/{id}` to
`complete/{id}` — no copy and no delete events — and exactly one
`notify_finished(id)`; afterwards `complete/{id}` exists and contains every
engine output, while `running/{id}` and its files are gone (moved, not
copied). -/
theorem success_atomic_rename_notify_once (fs : FS) (sim : Simulation)
    (engine : EngineBehavior) (ts jar : String)
    (hz : engine.exitZero = true)
    (hrA : fs.isDir runningArea = true)
    (hr1 : fs.isDir (runningArea ++ [sim.id]) = false)
    (hr2 : fs.isFile (runningArea ++ [sim.id]) = false)
    (hcA : fs.isDir completeArea = true)
    (hc : fs.isDir (completeArea ++ [sim.id]) = false)
    (hcf : fs.isFile (completeArea ++ [sim.id]) = false)
    (hlA : fs.isDir logsDir = true)
    (hld : fs.isDir (logsDir ++ [sim.id ++ ".log"]) = false)
    (houts : ∀ n, fs.isDir (runningArea ++ [sim.id] ++ [n]) = false) :
    (simulator_run fs (some sim) engine ts jar).err = none
    ∧ (simulator_run fs (some sim) engine ts jar).events
        = [Event.nextSimulationCall,
           Event.engineRun jar (topologiesDir ++ [sim.topology]) (runningArea ++ [sim.id]),
           Event.renameOp (runningArea ++ [sim.id]) (completeArea ++ [sim.id]),
           Event.notifyFinished sim.id]
    ∧ (simulator_run fs (some sim) engine ts jar).fs.isDir (completeArea ++ [sim.id]) = true
    ∧ (∀ n ∈ engine.outputs,
        (simulator_run fs (some sim) engine ts jar).fs.isFile
          (completeArea ++ [sim.id] ++ [n]) = true)
    ∧ (simulator_run fs (some sim) engine ts jar).fs.isDir (runningArea ++ [sim.id]) = false
    ∧ (∀ n, (simulator_run fs (some sim) engine ts jar).fs.isFile
          (runningArea ++ [sim.id] ++ [n]) = false) := by
  have hrdmem : runningArea ++ [sim.id] ∉ fs.dirs := by simpa [FS.isDir] using hr1
  have hcmem : completeArea ++ [sim.id] ∉ fs.dirs := by simpa [FS.isDir] using hc
  have hcAmem : completeArea ∈ fs.dirs := by simpa [FS.isDir] using hcA
  have hr2mem : runningArea ++ [sim.id] ∉ fs.files := by simpa [FS.isFile] using hr2
  have hcfmem : completeArea ++ [sim.id] ∉ fs.files := by simpa [FS.isFile] using hcf
  have hnecd : (completeArea ++ [sim.id] : FPath) ≠ runningArea ++ [sim.id] := by
    simp [completeArea, runningArea]
  have hnelp : (logsDir ++ [sim.id ++ ".log"] : FPath) ≠ runningArea ++ [sim.id] := by
    simp [logsDir, runningArea]
  have hnecdlp : (completeArea ++ [sim.id] : FPath) ≠ logsDir ++ [sim.id ++ ".log"] := by
    simp [completeArea, logsDir]
  have hmk : makedir fs (runningArea ++ [sim.id]) false
      = Except.ok ⟨(runningArea ++ [sim.id]) :: fs.dirs, fs.files⟩ := by
    simp [makedir, FS.mkdir, hr1, hr2, hrA]
  have h1 : (FS.mk ((runningArea ++ [sim.id]) :: fs.dirs) fs.files).isDir
      (completeArea ++ [sim.id]) = false := by
    simp [FS.isDir, hcmem, hnecd]
  have hlmem : logsDir ++ [sim.id ++ ".log"] ∉ fs.dirs := by simpa [FS.isDir] using hld
  have hlAmem : logsDir ∈ fs.dirs := by simpa [FS.isDir] using hlA
  obtain ⟨fs2, hwf2, hd2, hsub⟩ : ∃ fs2, (FS.mk ((runningArea ++ [sim.id]) :: fs.dirs)
        fs.files).writeFile (logsDir ++ [sim.id ++ ".log"]) = Except.ok fs2
      ∧ fs2.dirs = (runningArea ++ [sim.id]) :: fs.dirs
      ∧ ∀ p : FPath, fs2.isFile p = true →
          p = logsDir ++ [sim.id ++ ".log"] ∨ p ∈ fs.files := by
    refine ⟨⟨(runningArea ++ [sim.id]) :: fs.dirs,
        if (FS.mk ((runningArea ++ [sim.id]) :: fs.dirs) fs.files).isFile
            (logsDir ++ [sim.id ++ ".log"]) = true
        then fs.files else (logsDir ++ [sim.id ++ ".log"]) :: fs.files⟩, ?_, rfl, ?_⟩
    · simp [FS.writeFile, FS.isDir, hlmem, hlAmem, hnelp]
    · intro p hp
      simp only [FS.isFile] at hp
      split at hp
      · exact Or.inr (by simpa using hp)
      · simp at hp
        rcases hp with h | h
        · exact Or.inl h
        · exact Or.inr h
  have h2rd : fs2.isFile (runningArea ++ [sim.id]) = false := by
    cases h : fs2.isFile (runningArea ++ [sim.id]) with
    | false => rfl
    | true =>
      rcases hsub _ h with h' | h'
      · exact absurd h'.symm hnelp
      · exact absurd h' hr2mem
  have h2cd : fs2.isFile (completeArea ++ [sim.id]) = false := by
    cases h : fs2.isFile (completeArea ++ [sim.id]) with
    | false => rfl
    | true =>
      rcases hsub _ h with h' | h'
      · exact absurd h' hnecdlp
      · exact absurd h' hcfmem
  have hd3 : (writeOutputs fs2 (runningArea ++ [sim.id]) engine.outputs).dirs
      = (runningArea ++ [sim.id]) :: fs.dirs := by
    rw [writeOutputs_dirs]; exact hd2
  have hf3rd : (writeOutputs fs2 (runningArea ++ [sim.id]) engine.outputs).isFile
      (runningArea ++ [sim.id]) = false := by
    rw [writeOutputs_isFile_untouched engine.outputs fs2 (runningArea ++ [sim.id])
      (runningArea ++ [sim.id]) (fun n => by simp)]
    exact h2rd
  have hf3cd : (writeOutputs fs2 (runningArea ++ [sim.id]) engine.outputs).isFile
      (completeArea ++ [sim.id]) = false := by
    rw [writeOutputs_isFile_untouched engine.outputs fs2 (runningArea ++ [sim.id])
      (completeArea ++ [sim.id]) (fun n => by simp [completeArea, runningArea])]
    exact h2cd
  have hnerd : ((runningArea ++ [sim.id] : FPath) == completeArea ++ [sim.id]) = false := by
    simp [runningArea, completeArea]
  have hpre : (runningArea ++ [sim.id] : FPath).isPrefixOf (completeArea ++ [sim.id])
      = false := by
    simp [runningArea, completeArea, List.isPrefixOf]
  have h3cA : (writeOutputs fs2 (runningArea ++ [sim.id]) engine.outputs).isDir
      completeArea = true := by
    show (writeOutputs fs2 (runningArea ++ [sim.id]) engine.outputs).dirs.contains _ = true
    rw [hd3]; simp [hcAmem]
  have h3rd : (writeOutputs fs2 (runningArea ++ [sim.id]) engine.outputs).isDir
      (runningArea ++ [sim.id]) = true := by
    show (writeOutputs fs2 (runningArea ++ [sim.id]) engine.outputs).dirs.contains _ = true
    rw [hd3]; simp
  have h3cd : (writeOutputs fs2 (runningArea ++ [sim.id]) engine.outputs).isDir
      (completeArea ++ [sim.id]) = false := by
    show (writeOutputs fs2 (runningArea ++ [sim.id]) engine.outputs).dirs.contains _ = false
    rw [hd3]; simp [hcmem, hnecd]
  have hren : (writeOutputs fs2 (runningArea ++ [sim.id]) engine.outputs).rename
      (runningArea ++ [sim.id]) (completeArea ++ [sim.id])
      = Except.ok ⟨(((runningArea ++ [sim.id]) :: fs.dirs).filter
            (fun q => !(q == completeArea ++ [sim.id]))).map
            (movePrefix (runningArea ++ [sim.id]) (completeArea ++ [sim.id])),
          (writeOutputs fs2 (runningArea ++ [sim.id]) engine.outputs).files.map
            (movePrefix (runningArea ++ [sim.id]) (completeArea ++ [sim.id]))⟩ := by
    simp [FS.rename, hnerd, hpre, h3cA, hf3rd, h3rd, hf3cd, h3cd, hd3]
  have hexec := execJob_success_step (FS.mk ((runningArea ++ [sim.id]) :: fs.dirs) fs.files)
    fs2 _ sim engine ts jar hz h1 hwf2 hren
  have hrun : simulator_run fs (some sim) engine ts jar
      = ⟨none, ⟨(((runningArea ++ [sim.id]) :: fs.dirs).filter
            (fun q => !(q == completeArea ++ [sim.id]))).map
            (movePrefix (runningArea ++ [sim.id]) (completeArea ++ [sim.id])),
          (writeOutputs fs2 (runningArea ++ [sim.id]) engine.outputs).files.map
            (movePrefix (runningArea ++ [sim.id]) (completeArea ++ [sim.id]))⟩,
         [Event.nextSimulationCall,
          Event.engineRun jar (topologiesDir ++ [sim.topology]) (runningArea ++ [sim.id]),
          Event.renameOp (runningArea ++ [sim.id]) (completeArea ++ [sim.id]),
          Event.notifyFinished sim.id]⟩ := by
    rw [simulator_run_ok_step fs (FS.mk ((runningArea ++ [sim.id]) :: fs.dirs) fs.files)
      sim engine ts jar hmk, hexec]
  refine ⟨?_, ?_, ?_, ?_, ?_, ?_⟩
  · rw [hrun]
  · rw [hrun]
  · rw [hrun]
    have hself : movePrefix (runningArea ++ [sim.id]) (completeArea ++ [sim.id])
        (runningArea ++ [sim.id]) = completeArea ++ [sim.id] := by
      simp [movePrefix, List.isPrefixOf_iff_prefix]
    have hmem : completeArea ++ [sim.id] ∈ (((runningArea ++ [sim.id]) :: fs.dirs).filter
        (fun q => !(q == completeArea ++ [sim.id]))).map
        (movePrefix (runningArea ++ [sim.id]) (completeArea ++ [sim.id])) := by
      refine List.mem_map.mpr ⟨runningArea ++ [sim.id], ?_, hself⟩
      refine List.mem_filter.mpr ⟨List.mem_cons_self _ _, ?_⟩
      simpa using Ne.symm hnecd
    simpa [FS.isDir] using hmem
  · intro n hn
    rw [hrun]
    have h2rdT : fs2.isDir (runningArea ++ [sim.id]) = true := by
      show fs2.dirs.contains _ = true
      rw [hd2]; simp
    have h2sub : ∀ m, fs2.isDir (runningArea ++ [sim.id] ++ [m]) = false := by
      intro m
      show fs2.dirs.contains _ = false
      rw [hd2]
      have hx1 : (runningArea ++ [sim.id, m] : FPath) ≠ runningArea ++ [sim.id] := by simp
      have hx2 : runningArea ++ [sim.id, m] ∉ fs.dirs := by
        simpa [FS.isDir] using houts m
      simp [hx1, hx2]
    have hf3n := writeOutputs_isFile_new engine.outputs fs2 (runningArea ++ [sim.id])
      h2rdT h2sub n hn
    have happ : movePrefix (runningArea ++ [sim.id]) (completeArea ++ [sim.id])
        (runningArea ++ [sim.id] ++ [n]) = completeArea ++ [sim.id] ++ [n] := by
      simp [movePrefix, List.isPrefixOf_iff_prefix, List.prefix_append]
    have hmem : completeArea ++ [sim.id] ++ [n]
        ∈ (writeOutputs fs2 (runningArea ++ [sim.id]) engine.outputs).files.map
            (movePrefix (runningArea ++ [sim.id]) (completeArea ++ [sim.id])) :=
      List.mem_map.mpr ⟨runningArea ++ [sim.id] ++ [n], by simpa [FS.isFile] using hf3n, happ⟩
    simpa [FS.isFile] using hmem
  · rw [hrun]
    exact contains_map_movePrefix_false _ _ _ _
      (by simp [List.isPrefixOf_iff_prefix])
      (by simp [completeArea, runningArea, List.isPrefixOf])
  · intro n
    rw [hrun]
    exact contains_map_movePrefix_false _ _ _ _
      (by simp [List.isPrefixOf_iff_prefix, List.prefix_append])
      (by simp [completeArea, runningArea, List.isPrefixOf])

/-- Witness for `success_atomic_rename_notify_once`: job `J1` succeeding on a
clean installation. -/
theorem success_atomic_rename_notify_once_witness :
    (engineZero.exitZero = true
      ∧ fsClean.isDir runningArea = true
      ∧ fsClean.isDir (runningArea ++ [simJ1.id]) = false
      ∧ fsClean.isFile (runningArea ++ [simJ1.id]) = false
      ∧ fsClean.isDir completeArea = true
      ∧ fsClean.isDir (completeArea ++ [simJ1.id]) = false
      ∧ fsClean.isFile (completeArea ++ [simJ1.id]) = false
      ∧ fsClean.isDir logsDir = true
      ∧ fsClean.isDir (logsDir ++ [simJ1.id ++ ".log"]) = false
      ∧ (∀ n, fsClean.isDir (runningArea ++ [simJ1.id] ++ [n]) = false))
    ∧ ((simulator_run fsClean (some simJ1) engineZero "t" "jar").err = none
      ∧ (simulator_run fsClean (some simJ1) engineZero "t" "jar").events
          = [Event.nextSimulationCall,
             Event.engineRun "jar" (topologiesDir ++ [simJ1.topology])
               (runningArea ++ [simJ1.id]),
             Event.renameOp (runningArea ++ [simJ1.id]) (completeArea ++ [simJ1.id]),
             Event.notifyFinished simJ1.id]
      ∧ (simulator_run fsClean (some simJ1) engineZero "t" "jar").fs.isDir
          (completeArea ++ [simJ1.id]) = true
      ∧ (∀ n ∈ engineZero.outputs,
          (simulator_run fsClean (some simJ1) engineZero "t" "jar").fs.isFile
            (completeArea ++ [simJ1.id] ++ [n]) = true)
      ∧ (simulator_run fsClean (some simJ1) engineZero "t" "jar").fs.isDir
          (runningArea ++ [simJ1.id]) = false
      ∧ (∀ n, (simulator_run fsClean (some simJ1) engineZero "t" "jar").fs.isFile
            (runningArea ++ [simJ1.id] ++ [n]) = false)) :=
  ⟨⟨rfl, by decide, by decide, by decide, by decide, by decide, by decide, by decide,
    by decide, fun n => by simp [fsClean, FS.isDir, runningArea, simJ1]⟩,
   success_atomic_rename_notify_once fsClean simJ1 engineZero "t" "jar" rfl
     (by decide) (by decide) (by decide) (by decide) (by decide) (by decide)
     (by decide) (by decide)
     (fun n => by simp [fsClean, FS.isDir, runningArea, simJ1])⟩

/-! Preservation lemmas: which paths each filesystem operation leaves
untouched, used to settle the already-completed re-issue behaviour. -/

/-- Two lists with the same membership at `p` agree on `contains p`. -/
theorem contains_congr (l1 l2 : List FPath) (p : FPath) (h : p ∈ l1 ↔ p ∈ l2) :
    l1.contains p = l2.contains p := by
  cases hx : l2.contains p with
  | true =>
    simp at hx ⊢
    exact h.mpr hx
  | false =>
    simp at hx ⊢
    exact fun hmem => hx (h.mp hmem)

/-- A longer prefix of a path is still not a prefix. -/
theorem isPrefixOf_extend_false (l : FPath) (n : String) (p : FPath)
    (h : l.isPrefixOf p = false) : (l ++ [n]).isPrefixOf p = false := by
  cases hx : (l ++ [n]).isPrefixOf p with
  | false => rfl
  | true =>
    rw [List.isPrefixOf_iff_prefix] at hx
    have hl : l.isPrefixOf p = true := by
      rw [List.isPrefixOf_iff_prefix]
      exact (List.prefix_append l [n]).trans hx
    rw [hl] at h
    cases h

/-- A path of which `l` is not a prefix is in particular not `l` itself. -/
theorem ne_of_isPrefixOf_false (l p : FPath) (h : l.isPrefixOf p = false) : p ≠ l := by
  intro he
  subst he
  have ht : p.isPrefixOf p = true := by
    rw [List.isPrefixOf_iff_prefix]
  rw [ht] at h
  cases h

/-- A successful `os.rename` leaves every path outside both the source and
the destination subtree exactly as it was. -/
theorem rename_preserves (fs fs' : FS) (src dst p : FPath)
    (hs : src.isPrefixOf p = false) (hd : dst.isPrefixOf p = false)
    (h : fs.rename src dst = Except.ok fs') :
    fs'.isDir p = fs.isDir p ∧ fs'.isFile p = fs.isFile p := by
  have hps : p ≠ src := ne_of_isPrefixOf_false src p hs
  have hpd : p ≠ dst := ne_of_isPrefixOf_false dst p hd
  unfold FS.rename at h
  split at h
  · split at h
    · injection h with h; subst h; exact ⟨rfl, rfl⟩
    · cases h
  · split at h
    · cases h
    · split at h
      · cases h
      · split at h
        · split at h
          · cases h
          · injection h with h; subst h
            refine ⟨rfl, ?_⟩
            show (dst :: fs.files.filter fun q => !(q == src) && !(q == dst)).contains p
              = fs.files.contains p
            refine contains_congr _ _ p ?_
            constructor
            · intro hp
              rcases List.mem_cons.mp hp with h' | h'
              · exact absurd h' hpd
              · exact (List.mem_filter.mp h').1
            · intro hp
              refine List.mem_cons.mpr (Or.inr (List.mem_filter.mpr ⟨hp, ?_⟩))
              simp [hps, hpd]
        · split at h
          · split at h
            · cases h
            · split at h
              · cases h
              · injection h with h; subst h
                constructor
                · show ((fs.dirs.filter fun q => !(q == dst)).map
                      (movePrefix src dst)).contains p = fs.dirs.contains p
                  refine contains_congr _ _ p ?_
                  constructor
                  · intro hp
                    rcases List.mem_map.mp hp with ⟨q, hq, hfq⟩
                    have hq' := (List.mem_filter.mp hq).1
                    unfold movePrefix at hfq
                    split at hfq
                    · exfalso
                      have hdp : dst.isPrefixOf p = true := by
                        rw [← hfq, List.isPrefixOf_iff_prefix]
                        exact ⟨_, rfl⟩
                      rw [hdp] at hd
                      cases hd
                    · subst hfq; exact hq'
                  · intro hp
                    refine List.mem_map.mpr
                      ⟨p, List.mem_filter.mpr ⟨hp, by simp [hpd]⟩, ?_⟩
                    simp [movePrefix, hs]
                · show (fs.files.map (movePrefix src dst)).contains p
                    = fs.files.contains p
                  refine contains_congr _ _ p ?_
                  constructor
                  · intro hp
                    rcases List.mem_map.mp hp with ⟨q, hq, hfq⟩
                    unfold movePrefix at hfq
                    split at hfq
                    · exfalso
                      have hdp : dst.isPrefixOf p = true := by
                        rw [← hfq, List.isPrefixOf_iff_prefix]
                        exact ⟨_, rfl⟩
                      rw [hdp] at hd
                      cases hd
                    · subst hfq; exact hq
                  · intro hp
                    refine List.mem_map.mpr ⟨p, hp, ?_⟩
                    simp [movePrefix, hs]
          · cases h

/-- A successful `makedir` leaves every other path as it was. -/
theorem makedir_preserves (fs fs' : FS) (d : FPath) (b : Bool) (p : FPath)
    (hne : p ≠ d) (h : makedir fs d b = Except.ok fs') :
    fs'.isDir p = fs.isDir p ∧ fs'.isFile p = fs.isFile p := by
  unfold makedir FS.mkdir at h
  split at h
  · split at h
    · injection h with h; subst h; exact ⟨rfl, rfl⟩
    · split at h
      · cases h
      · split at h
        · injection h with h; subst h
          refine ⟨?_, rfl⟩
          show (d :: fs.dirs).contains p = fs.dirs.contains p
          refine contains_congr _ _ p ?_
          simp [hne]
        · cases h
  · split at h
    · cases h
    · split at h
      · injection h with h; subst h
        refine ⟨?_, rfl⟩
        show (d :: fs.dirs).contains p = fs.dirs.contains p
        refine contains_congr _ _ p ?_
        simp [hne]
      · cases h

/-- The archival loop of `_handle_failure` leaves every path outside the
source and destination subtrees as it was. -/
theorem moveAll_preserves (names : List String) : ∀ (fs : FS) (s d : FPath)
    (acc : List Event) (p : FPath), s.isPrefixOf p = false → d.isPrefixOf p = false →
    ((moveAll fs names s d acc).2.1.isDir p = fs.isDir p
      ∧ (moveAll fs names s d acc).2.1.isFile p = fs.isFile p) := by
  induction names with
  | nil => intro fs s d acc p _ _; exact ⟨rfl, rfl⟩
  | cons n rest ih =>
    intro fs s d acc p hs hd
    unfold moveAll
    split
    · exact ⟨rfl, rfl⟩
    · rename_i fs' heq
      have hpres := rename_preserves fs fs' (s ++ [n]) (d ++ [n]) p
        (isPrefixOf_extend_false s n p hs) (isPrefixOf_extend_false d n p hd) heq
      have hrest := ih fs' s d (acc ++ [Event.renameOp (s ++ [n]) (d ++ [n])]) p hs hd
      exact ⟨hrest.1.trans hpres.1, hrest.2.trans hpres.2⟩

/-- `_handle_failure` touches only the log file, its timestamped backup, the
per-job failed directory and the timestamped archive paths: every other path
is preserved, whether or not the handler raises. -/
theorem handle_failure_preserves (fs : FS) (sim : Simulation) (rd lp : FPath)
    (ts : String) (p : FPath)
    (hlp : lp.isPrefixOf p = false)
    (hlb : (logsDir ++ [sim.id ++ "-" ++ ts ++ ".log"]).isPrefixOf p = false)
    (hfd : p ≠ failedArea ++ [sim.id])
    (hrd : rd.isPrefixOf p = false)
    (hft : (failedArea ++ [sim.id, ts]).isPrefixOf p = false) :
    ((handle_failure fs sim rd lp ts).2.1.isDir p = fs.isDir p
      ∧ (handle_failure fs sim rd lp ts).2.1.isFile p = fs.isFile p) := by
  simp only [handle_failure]
  split
  · exact ⟨rfl, rfl⟩
  · rename_i fs1 heq1
    have h1 := rename_preserves fs fs1 lp
      (logsDir ++ [sim.id ++ "-" ++ ts ++ ".log"]) p hlp hlb heq1
    split
    · exact h1
    · rename_i fs2 heq2
      have h2 := makedir_preserves fs1 fs2 (failedArea ++ [sim.id]) true p hfd heq2
      have h3 := moveAll_preserves (fs2.listdir rd) fs2 rd (failedArea ++ [sim.id, ts])
        [Event.renameOp lp (logsDir ++ [sim.id ++ "-" ++ ts ++ ".log"])] p hrd hft
      exact ⟨(h3.1.trans h2.1).trans h1.1, (h3.2.trans h2.2).trans h1.2⟩

/-- Every completion notification `execJob` records names the id of the job
being executed. -/
theorem execJob_notify_id (fs1 : FS) (sim : Simulation) (engine : EngineBehavior)
    (ts jar : String) (i : String)
    (h : Event.notifyFinished i ∈ (execJob fs1 sim engine ts jar).events) :
    i = sim.id := by
  simp only [execJob] at h
  split at h
  · simp at h; exact h
  · split at h
    · simp at h
    · rename_i fs2 heqw
      split at h
      · split at h
        · simp at h
        · simp at h; exact h
      · split at h
        · rename_i heq
          simp at h
          have hr := handle_failure_events_rename
            (writeOutputs fs2 (runningArea ++ [sim.id]) engine.outputs) sim
            (runningArea ++ [sim.id]) (logsDir ++ [sim.id ++ ".log"]) ts
            (Event.notifyFinished i)
          rw [heq] at hr
          exact absurd (hr h) (by simp [Event.isRenameOp])
        · rename_i heq
          simp at h
          have hr := handle_failure_events_rename
            (writeOutputs fs2 (runningArea ++ [sim.id]) engine.outputs) sim
            (runningArea ++ [sim.id]) (logsDir ++ [sim.id ++ ".log"]) ts
            (Event.notifyFinished i)
          rw [heq] at hr
          exact absurd (hr h) (by simp [Event.isRenameOp])

/-- Every completion notification a `_run` iteration records names the id of
the job returned by that iteration's poll. -/
theorem simulator_run_notify_id (fs : FS) (sim : Simulation)
    (engine : EngineBehavior) (ts jar : String) (i : String)
    (h : Event.notifyFinished i ∈ (simulator_run fs (some sim) engine ts jar).events) :
    i = sim.id := by
  simp only [simulator_run] at h
  split at h
  · rename_i e fs1 evs1 heq
    simp at h
    split at heq
    · simp at heq
    · rename_i hmk
      have hr := handle_failure_events_rename fs sim
        (runningArea ++ [sim.id]) (logsDir ++ [sim.id ++ ".log"]) ts
        (Event.notifyFinished i)
      rw [heq] at hr
      exact absurd (hr h) (by simp [Event.isRenameOp])
    · rename_i e' hmk
      simp at heq
      rw [heq.2.2] at h
      simp at h
  · rename_i fs1 evs1 heq
    simp at h
    rcases h with h | h
    · split at heq
      · rename_i hmk
        simp at heq
        rw [heq.2] at h
        simp at h
      · rename_i hmk
        have hr := handle_failure_events_rename fs sim
          (runningArea ++ [sim.id]) (logsDir ++ [sim.id ++ ".log"]) ts
          (Event.notifyFinished i)
        rw [heq] at hr
        exact absurd (hr h) (by simp [Event.isRenameOp])
      · rename_i e' hmk
        simp at heq
    · exact execJob_notify_id fs1 sim engine ts jar i h

/-- None of the paths `_handle_failure` can touch (log file, log backup,
failed entry, running subtree, timestamped archive) lies under the complete
area, and no complete-area path is the per-job running directory. -/
theorem complete_prefix_facts (sim : Simulation) (ts : String) (p : FPath)
    (hp : completeArea.isPrefixOf p = true) :
    (logsDir ++ [sim.id ++ ".log"]).isPrefixOf p = false
    ∧ (logsDir ++ [sim.id ++ "-" ++ ts ++ ".log"]).isPrefixOf p = false
    ∧ p ≠ failedArea ++ [sim.id]
    ∧ (runningArea ++ [sim.id]).isPrefixOf p = false
    ∧ (failedArea ++ [sim.id, ts]).isPrefixOf p = false
    ∧ p ≠ runningArea ++ [sim.id] := by
  rw [List.isPrefixOf_iff_prefix] at hp
  obtain ⟨t, ht⟩ := hp
  subst ht
  have hlogs : (logsDir : FPath).isPrefixOf (completeArea ++ t) = false := by
    simp [logsDir, completeArea, List.isPrefixOf]
  have hrun : (runningArea : FPath).isPrefixOf (completeArea ++ t) = false := by
    simp [runningArea, completeArea, List.isPrefixOf]
  have hfail : (failedArea : FPath).isPrefixOf (completeArea ++ t) = false := by
    simp [failedArea, completeArea, List.isPrefixOf]
  have hft : (failedArea ++ [sim.id, ts] : FPath).isPrefixOf (completeArea ++ t)
      = false := by
    have := isPrefixOf_extend_false (failedArea ++ [sim.id]) ts (completeArea ++ t)
      (isPrefixOf_extend_false failedArea sim.id (completeArea ++ t) hfail)
    simpa [List.append_assoc] using this
  exact ⟨isPrefixOf_extend_false _ _ _ hlogs,
    isPrefixOf_extend_false _ _ _ hlogs,
    ne_of_isPrefixOf_false _ _ (isPrefixOf_extend_false _ _ _ hfail),
    isPrefixOf_extend_false _ _ _ hrun, hft,
    ne_of_isPrefixOf_false _ _ (isPrefixOf_extend_false _ _ _ hrun)⟩

/-- When the complete entry of the polled job exists at the check,
`execJob` only re-issues the notification. -/
theorem execJob_completed (fs1 : FS) (sim : Simulation) (engine : EngineBehavior)
    (ts jar : String) (hcd : fs1.isDir (completeArea ++ [sim.id]) = true) :
    execJob fs1 sim engine ts jar
      = ⟨none, fs1, [Event.notifyFinished sim.id]⟩ := by
  simp [execJob, hcd]

/-- A successful `makedir` with `exist_ok=False` creates exactly the
requested directory. -/
theorem makedir_ok_shape (fs fs1 : FS) (d : FPath)
    (h : makedir fs d false = Except.ok fs1) : fs1 = FS.mk (d :: fs.dirs) fs.files := by
  have h' : fs.mkdir d = Except.ok fs1 := h
  unfold FS.mkdir at h'
  split at h'
  · cases h'
  · split at h'
    · injection h' with h'; exact h'.symm
    · cases h'

/-- With the job's complete entry present at entry, a `_run` iteration
leaves every path under the complete area unchanged, whichever branch it
takes and whether or not it raises. -/
theorem completed_preserves (fs : FS) (sim : Simulation) (engine : EngineBehavior)
    (ts jar : String) (hc : fs.isDir (completeArea ++ [sim.id]) = true)
    (p : FPath) (hp : completeArea.isPrefixOf p = true) :
    (simulator_run fs (some sim) engine ts jar).fs.isDir p = fs.isDir p
      ∧ (simulator_run fs (some sim) engine ts jar).fs.isFile p = fs.isFile p := by
  obtain ⟨f1, f2, f3, f4, f5, f6⟩ := complete_prefix_facts sim ts p hp
  have hcpre : completeArea.isPrefixOf (completeArea ++ [sim.id]) = true := by
    rw [List.isPrefixOf_iff_prefix]
    exact List.prefix_append _ _
  rcases hmk : makedir fs (runningArea ++ [sim.id]) false with e | fs1
  case ok =>
    have hfs1 := makedir_ok_shape fs fs1 (runningArea ++ [sim.id]) hmk
    subst hfs1
    have hcm : (FS.mk ((runningArea ++ [sim.id]) :: fs.dirs) fs.files).isDir
        (completeArea ++ [sim.id]) = true := by
      show ((runningArea ++ [sim.id]) :: fs.dirs).contains (completeArea ++ [sim.id]) = true
      have hmem : completeArea ++ [sim.id] ∈ fs.dirs := by simpa [FS.isDir] using hc
      simp [hmem]
    simp only [simulator_run, hmk, execJob_completed _ sim engine ts jar hcm]
    constructor
    · show ((runningArea ++ [sim.id]) :: fs.dirs).contains p = fs.dirs.contains p
      refine contains_congr _ _ p ?_
      simp [f6]
    · rfl
  case error =>
    cases e
    case fileExistsError =>
      rcases hh : handle_failure fs sim (runningArea ++ [sim.id])
          (logsDir ++ [sim.id ++ ".log"]) ts with ⟨err, fsh, evs⟩
      have hpres := handle_failure_preserves fs sim (runningArea ++ [sim.id])
        (logsDir ++ [sim.id ++ ".log"]) ts p f1 f2 f3 f4 f5
      rw [hh] at hpres
      obtain ⟨g1, g2, g3, g4, g5, g6⟩ := complete_prefix_facts sim ts
        (completeArea ++ [sim.id]) hcpre
      have hcfsh : fsh.isDir (completeArea ++ [sim.id]) = true := by
        have h2 := handle_failure_preserves fs sim (runningArea ++ [sim.id])
          (logsDir ++ [sim.id ++ ".log"]) ts (completeArea ++ [sim.id]) g1 g2 g3 g4 g5
        rw [hh] at h2
        rw [h2.1]
        exact hc
      cases err with
      | some e =>
        simp only [simulator_run, hmk, hh]
        exact hpres
      | none =>
        simp only [simulator_run, hmk, hh,
          execJob_completed fsh sim engine ts jar hcfsh]
        exact hpres
    all_goals simp [simulator_run, hmk]

/-- With the job's complete entry present at entry, a `_run` iteration never
invokes the engine, whichever branch it takes. -/
theorem completed_no_engineRun (fs : FS) (sim : Simulation) (engine : EngineBehavior)
    (ts jar : String) (hc : fs.isDir (completeArea ++ [sim.id]) = true)
    (j : String) (t o : FPath)
    (h : Event.engineRun j t o ∈ (simulator_run fs (some sim) engine ts jar).events) :
    False := by
  have hcpre : completeArea.isPrefixOf (completeArea ++ [sim.id]) = true := by
    rw [List.isPrefixOf_iff_prefix]
    exact List.prefix_append _ _
  rcases hmk : makedir fs (runningArea ++ [sim.id]) false with e | fs1
  case ok =>
    have hfs1 := makedir_ok_shape fs fs1 (runningArea ++ [sim.id]) hmk
    subst hfs1
    have hcm : (FS.mk ((runningArea ++ [sim.id]) :: fs.dirs) fs.files).isDir
        (completeArea ++ [sim.id]) = true := by
      show ((runningArea ++ [sim.id]) :: fs.dirs).contains (completeArea ++ [sim.id]) = true
      have hmem : completeArea ++ [sim.id] ∈ fs.dirs := by simpa [FS.isDir] using hc
      simp [hmem]
    rw [simulator_run] at h
    simp [hmk, execJob_completed _ sim engine ts jar hcm] at h
  case error =>
    cases e
    case fileExistsError =>
      rcases hh : handle_failure fs sim (runningArea ++ [sim.id])
          (logsDir ++ [sim.id ++ ".log"]) ts with ⟨err, fsh, evs⟩
      have hevs := handle_failure_events_rename fs sim (runningArea ++ [sim.id])
        (logsDir ++ [sim.id ++ ".log"]) ts
      rw [hh] at hevs
      obtain ⟨g1, g2, g3, g4, g5, g6⟩ := complete_prefix_facts sim ts
        (completeArea ++ [sim.id]) hcpre
      have hcfsh : fsh.isDir (completeArea ++ [sim.id]) = true := by
        have h2 := handle_failure_preserves fs sim (runningArea ++ [sim.id])
          (logsDir ++ [sim.id ++ ".log"]) ts (completeArea ++ [sim.id]) g1 g2 g3 g4 g5
        rw [hh] at h2
        rw [h2.1]
        exact hc
      cases err with
      | some e =>
        rw [simulator_run] at h
        simp [hmk, hh] at h
        exact absurd (hevs _ h) (by simp [Event.isRenameOp])
      | none =>
        rw [simulator_run] at h
        simp [hmk, hh, execJob_completed fsh sim engine ts jar hcfsh] at h
        exact absurd (hevs _ h) (by simp [Event.isRenameOp])
    all_goals (rw [simulator_run] at h; simp [hmk] at h)

/-- With the job's complete entry present at entry, an iteration that
completes without raising does (re)issue the completion notification. -/
theorem completed_notify_on_ok (fs : FS) (sim : Simulation) (engine : EngineBehavior)
    (ts jar : String) (hc : fs.isDir (completeArea ++ [sim.id]) = true)
    (hnone : (simulator_run fs (some sim) engine ts jar).err = none) :
    Event.notifyFinished sim.id ∈ (simulator_run fs (some sim) engine ts jar).events := by
  have hcpre : completeArea.isPrefixOf (completeArea ++ [sim.id]) = true := by
    rw [List.isPrefixOf_iff_prefix]
    exact List.prefix_append _ _
  rcases hmk : makedir fs (runningArea ++ [sim.id]) false with e | fs1
  case ok =>
    have hfs1 := makedir_ok_shape fs fs1 (runningArea ++ [sim.id]) hmk
    subst hfs1
    have hcm : (FS.mk ((runningArea ++ [sim.id]) :: fs.dirs) fs.files).isDir
        (completeArea ++ [sim.id]) = true := by
      show ((runningArea ++ [sim.id]) :: fs.dirs).contains (completeArea ++ [sim.id]) = true
      have hmem : completeArea ++ [sim.id] ∈ fs.dirs := by simpa [FS.isDir] using hc
      simp [hmem]
    rw [simulator_run]
    simp [hmk, execJob_completed _ sim engine ts jar hcm]
  case error =>
    cases e
    case fileExistsError =>
      rcases hh : handle_failure fs sim (runningArea ++ [sim.id])
          (logsDir ++ [sim.id ++ ".log"]) ts with ⟨err, fsh, evs⟩
      obtain ⟨g1, g2, g3, g4, g5, g6⟩ := complete_prefix_facts sim ts
        (completeArea ++ [sim.id]) hcpre
      have hcfsh : fsh.isDir (completeArea ++ [sim.id]) = true := by
        have h2 := handle_failure_preserves fs sim (runningArea ++ [sim.id])
          (logsDir ++ [sim.id ++ ".log"]) ts (completeArea ++ [sim.id]) g1 g2 g3 g4 g5
        rw [hh] at h2
        rw [h2.1]
        exact hc
      cases err with
      | some e =>
        rw [simulator_run] at hnone
        simp [hmk, hh] at hnone
      | none =>
        rw [simulator_run]
        simp [hmk, hh, execJob_completed fsh sim engine ts jar hcfsh]
    all_goals (rw [simulator_run] at hnone; simp [hmk] at hnone)

/-- C3 counterexample: a reachable run on which the claim fails.  From a
clean installation, job `J1` succeeds (iteration 1) and the dispatcher
re-issues it three times.  Iteration 2 takes the notify-only path but leaves
an empty `running/J1` behind; iteration 3 — with `complete/J1` present at
entry — first renames `logs/J1.log` away in the recovery block, so more than
"only the completion notification" is issued; iteration 4 — with
`complete/J1` still present at entry, the claim's exact premise — crashes
with `FileNotFoundError` renaming the now-missing log and issues NO
notification at all. -/
theorem completed_reissue_crash_cex :
    ((simulator_run (simulator_run (simulator_run fsClean (some simJ1) engineZero
        "t1" "jar").fs (some simJ1) engineZero "t2" "jar").fs (some simJ1) engineZero
        "t3" "jar").fs.isDir (completeArea ++ [simJ1.id]) = true)
    ∧ ((simulator_run (simulator_run (simulator_run fsClean (some simJ1) engineZero
        "t1" "jar").fs (some simJ1) engineZero "t2" "jar").fs (some simJ1) engineZero
        "t3" "jar").events
        = [Event.nextSimulationCall,
           Event.renameOp ["logs", "J1.log"] ["logs", "J1-t3.log"],
           Event.notifyFinished "J1"])
    ∧ ((simulator_run (simulator_run (simulator_run (simulator_run fsClean (some simJ1)
        engineZero "t1" "jar").fs (some simJ1) engineZero "t2" "jar").fs (some simJ1)
        engineZero "t3" "jar").fs (some simJ1) engineZero "t4" "jar").err
        = some PyErr.fileNotFoundError)
    ∧ (Event.notifyFinished simJ1.id
        ∉ (simulator_run (simulator_run (simulator_run (simulator_run fsClean (some simJ1)
        engineZero "t1" "jar").fs (some simJ1) engineZero "t2" "jar").fs (some simJ1)
        engineZero "t3" "jar").fs (some simJ1) engineZero "t4" "jar").events) := by
  refine ⟨rfl, rfl, rfl, by decide⟩

/-- C3 (amended): for every job whose id already has an entry in the
complete area when the execution path is entered, the engine is never re-run
and the complete-area entry (every path under the complete area) is left
unchanged; any notification issued names that job's id, and the notification
is (re)issued whenever the iteration completes without raising — in
particular, in the normal re-issue state where the job's running directory
is absent, the iteration raises nothing and its events are exactly the poll
and the one notification.  (When a leftover `running/{id}` exists, the
recovery block runs first and may rename the log or abort the iteration
before any notification.) -/
theorem already_completed_guarded (fs : FS) (sim : Simulation)
    (engine : EngineBehavior) (ts jar : String)
    (hc : fs.isDir (completeArea ++ [sim.id]) = true) :
    (∀ j t o, Event.engineRun j t o ∉ (simulator_run fs (some sim) engine ts jar).events)
    ∧ (∀ p : FPath, completeArea.isPrefixOf p = true →
        ((simulator_run fs (some sim) engine ts jar).fs.isDir p = fs.isDir p
          ∧ (simulator_run fs (some sim) engine ts jar).fs.isFile p = fs.isFile p))
    ∧ (∀ i, Event.notifyFinished i
          ∈ (simulator_run fs (some sim) engine ts jar).events → i = sim.id)
    ∧ ((simulator_run fs (some sim) engine ts jar).err = none →
        Event.notifyFinished sim.id ∈ (simulator_run fs (some sim) engine ts jar).events)
    ∧ (fs.isDir runningArea = true →
        fs.isDir (runningArea ++ [sim.id]) = false →
        fs.isFile (runningArea ++ [sim.id]) = false →
        ((simulator_run fs (some sim) engine ts jar).err = none
          ∧ (simulator_run fs (some sim) engine ts jar).events
              = [Event.nextSimulationCall, Event.notifyFinished sim.id])) := by
  refine ⟨fun j t o hmem => completed_no_engineRun fs sim engine ts jar hc j t o hmem,
    fun p hp => completed_preserves fs sim engine ts jar hc p hp,
    fun i hmem => simulator_run_notify_id fs sim engine ts jar i hmem,
    fun hnone => completed_notify_on_ok fs sim engine ts jar hc hnone, ?_⟩
  intro hrA hr1 hr2
  have hmk : makedir fs (runningArea ++ [sim.id]) false
      = Except.ok ⟨(runningArea ++ [sim.id]) :: fs.dirs, fs.files⟩ := by
    simp [makedir, FS.mkdir, hr1, hr2, hrA]
  have hcm : FS.isDir ⟨(runningArea ++ [sim.id]) :: fs.dirs, fs.files⟩
      (completeArea ++ [sim.id]) = true := by
    simp [FS.isDir] at hc ⊢
    simp [hc]
  constructor
  · simp [simulator_run, hmk, execJob, hcm]
  · simp [simulator_run, hmk, execJob, hcm]

/-- Witness for `already_completed_guarded`: job `J1` completed on an
otherwise clean installation. -/
theorem already_completed_guarded_witness :
    (fsDoneJ1.isDir (completeArea ++ [simJ1.id]) = true)
    ∧ ((∀ j t o, Event.engineRun j t o
          ∉ (simulator_run fsDoneJ1 (some simJ1) engineZero "t" "jar").events)
      ∧ (∀ p : FPath, completeArea.isPrefixOf p = true →
          ((simulator_run fsDoneJ1 (some simJ1) engineZero "t" "jar").fs.isDir p
              = fsDoneJ1.isDir p
            ∧ (simulator_run fsDoneJ1 (some simJ1) engineZero "t" "jar").fs.isFile p
              = fsDoneJ1.isFile p))
      ∧ (∀ i, Event.notifyFinished i
            ∈ (simulator_run fsDoneJ1 (some simJ1) engineZero "t" "jar").events →
            i = simJ1.id)
      ∧ ((simulator_run fsDoneJ1 (some simJ1) engineZero "t" "jar").err = none →
          Event.notifyFinished simJ1.id
            ∈ (simulator_run fsDoneJ1 (some simJ1) engineZero "t" "jar").events)
      ∧ (fsDoneJ1.isDir runningArea = true →
          fsDoneJ1.isDir (runningArea ++ [simJ1.id]) = false →
          fsDoneJ1.isFile (runningArea ++ [simJ1.id]) = false →
          ((simulator_run fsDoneJ1 (some simJ1) engineZero "t" "jar").err = none
            ∧ (simulator_run fsDoneJ1 (some simJ1) engineZero "t" "jar").events
                = [Event.nextSimulationCall, Event.notifyFinished simJ1.id]))) :=
  ⟨by decide, already_completed_guarded fsDoneJ1 simJ1 engineZero "t" "jar" (by decide)⟩
